import Mathlib

/-!
Shallow embedding of the core state machine of
`src/scientificCalc.py` (class `AdvancedScientificCalculator`).

The mutable session state of the calculator is the quadruple
`(expression, history, shift_mode, memory)` (source lines 38-41).
External collaborators (the sympy symbolic engine, the mpmath numeric
evaluator, Python `eval`, tkinter display) are modelled as oracle
outcomes: a fallible external call is an `Option`/`Except` value handed
to the handler, `some`/`ok` being the stringified value the call
returned and `none`/`error` the case in which the call raised an
exception (caught by the handlers' try/except blocks).

Pure string manipulations performed by the handlers themselves
(`str.replace('^', '**')`, slicing `[:-1]`, `split("=")`,
`key.isdigit()`, the shift-mapping dictionary lookup) are translated
directly.
-/

namespace SciCalc

/-- Source lines 14-24: the keys of the `allowed_names` dictionary,
the only names visible to the restricted `eval` call. -/
def allowed_names : List String :=
  ["sin", "cos", "tan", "log", "ln", "sqrt", "exp", "pi", "e"]

/-- Source lines 44-49: `self.shift_mapping`, digit button to variable letter. -/
def shift_mapping : List (String × String) :=
  [("7", "x"), ("8", "y"), ("9", "z"),
   ("4", "a"), ("5", "b"), ("6", "c"),
   ("1", "d"), ("2", "e"), ("3", "f"),
   ("0", "g")]

/-- Python `self.shift_mapping.get(key, key)`: the mapped letter when
`key` is in the dictionary, `key` itself otherwise. -/
def lookupShift (key : String) : String :=
  ((shift_mapping.lookup key).getD key)

/-- Python `key.isdigit()`: nonempty and every character a digit
(the calculator's tokens are ASCII, so ASCII digits suffice). -/
def pyIsDigit (s : String) : Bool :=
  !s.isEmpty && s.data.all Char.isDigit

/-- Expansion of one character under Python `replace('^', '**')`. -/
def caretExpand (c : Char) : List Char :=
  if c = '^' then ['*', '*'] else [c]

/-- Source line 148 (also 329/337/418): `self.expression.replace('^', '**')`. -/
def replaceCaret (s : String) : String :=
  ⟨(s.data.map caretExpand).flatten⟩

/-- Python slicing `s[:-1]` (source line 161): all but the last character;
the empty string stays empty. -/
def pySliceDropLast (s : String) : String :=
  ⟨s.data.dropLast⟩

/-- Splitting a character list at every occurrence of `sep`
(the semantics of Python `str.split` with a one-character separator). -/
def splitOnChar (sep : Char) : List Char → List (List Char)
  | [] => [[]]
  | c :: cs =>
    let r := splitOnChar sep cs
    if c = sep then [] :: r
    else
      match r with
      | [] => [[c]]
      | h :: t => (c :: h) :: t

/-- Source line 229: `lhs, rhs = self.expression.split("=")`; the tuple
unpacking succeeds only when the split yields exactly two pieces
(exactly one `=` in the string) and raises `ValueError` otherwise. -/
def splitTwo (s : String) : Option (String × String) :=
  match (splitOnChar '=' s.data).map String.mk with
  | [a, b] => some (a, b)
  | _ => none

/-- Maximal runs of letters in a character list, accumulated; used to
extract the candidate symbol names of an expression string. -/
def splitIdentsAux : List Char → List Char → List String
  | [], acc => if acc.isEmpty then [] else [String.mk acc.reverse]
  | c :: cs, acc =>
    if c.isAlpha then splitIdentsAux cs (c :: acc)
    else if acc.isEmpty then splitIdentsAux cs []
    else String.mk acc.reverse :: splitIdentsAux cs []

/-- The alphabetic identifier substrings of `s`. -/
def identifiersOf (s : String) : List String :=
  splitIdentsAux s.data []

/-- `s` mentions a symbol outside the fixed `allowed_names` vocabulary.
Evaluating such a symbol under `eval(-, {"__builtins__": None},
allowed_names)` (source line 151) raises `NameError`. -/
def containsUnknownName (s : String) : Bool :=
  (identifiersOf s).any (fun n => !allowed_names.contains n)

/-- The calculator's mutable session state (source lines 38-41).
`memory` is a Python float; its carrier `α` is kept abstract. -/
structure CalcState (α : Type) where
  expression : String
  history : List String
  shift_mode : Bool
  memory : α
deriving DecidableEq

/-- The external collaborators used inside `click`:
* `evalExpr s`: `eval(str(parse_expr(s, transformations)), {...}, allowed_names)`
  stringified, `none` when parsing or evaluation raises (source lines 150-151);
* `parseNumber`: `mp.mpf(self.expression)` (source lines 165/174), `none` on raise;
* `fmt`: Python `str` on the numeric carrier `β`;
* `piVal`: the constant `mp.pi`. -/
structure Engine (β : Type) where
  evalExpr : String → Option String
  parseNumber : String → Option β
  fmt : β → String
  piVal : β

variable {α β : Type}

/-- Source lines 146-156, the `key == "="` branch of `click`:
rewrite `^` to `**`, parse and evaluate (the combined fallible call is
`evalOutcome`); on success log `"<rewritten> = <result>"` and replace
the buffer with the result; on any exception set the buffer to
`"Error"` and log nothing. -/
def clickEval (st : CalcState α) (evalOutcome : Option String) : CalcState α :=
  let expr := replaceCaret st.expression
  match evalOutcome with
  | some r =>
    { st with history := st.history ++ [expr ++ " = " ++ r], expression := r }
  | none => { st with expression := "Error" }

/-- Source lines 183-187, the final `else` branch of `click`: shift-remap
a digit key when shift mode is on, then append the key to the buffer. -/
def clickLiteral (st : CalcState α) (key : String) : CalcState α :=
  let key2 := if pyIsDigit key && st.shift_mode then lookupShift key else key
  { st with expression := st.expression ++ key2 }

/-- The key interpretation of a literal token under a given shift mode
(the remapping of source lines 184-185). -/
def mapToken (shift : Bool) (key : String) : String :=
  if pyIsDigit key && shift then lookupShift key else key

/-- Source lines 163-171, the `toDeg` branch: parse the whole buffer as
a number, multiply by `180 / pi`, log the conversion with the
pre-conversion buffer text, replace the buffer; on parse failure set
the buffer to `"Error"` and log nothing. -/
def clickToDeg [Field β] (eng : Engine β) (st : CalcState α) : CalcState α :=
  match eng.parseNumber st.expression with
  | some value =>
    let converted := value * 180 / eng.piVal
    { st with
      history := st.history ++
        ["toDeg(" ++ st.expression ++ ") = " ++ eng.fmt converted],
      expression := eng.fmt converted }
  | none => { st with expression := "Error" }

/-- Source lines 172-180, the `toRad` branch: as `toDeg` with `* pi / 180`. -/
def clickToRad [Field β] (eng : Engine β) (st : CalcState α) : CalcState α :=
  match eng.parseNumber st.expression with
  | some value =>
    let converted := value * eng.piVal / 180
    { st with
      history := st.history ++
        ["toRad(" ++ st.expression ++ ") = " ++ eng.fmt converted],
      expression := eng.fmt converted }
  | none => { st with expression := "Error" }

/-- Source lines 145-187: the `click` dispatcher on a key. The `Graph`
branch only opens an options window (source line 182) and mutates none
of the modelled state fields. -/
def click [Field β] (eng : Engine β) (st : CalcState α) (key : String) :
    CalcState α :=
  if key = "=" then clickEval st (eng.evalExpr (replaceCaret st.expression))
  else if key = "C" then { st with expression := "" }
  else if key = "Del" then { st with expression := pySliceDropLast st.expression }
  else if key = "toDeg" then clickToDeg eng st
  else if key = "toRad" then clickToRad eng st
  else if key = "Graph" then st
  else clickLiteral st key

/-- Source lines 141-143: `toggle_shift` flips the flag (the button
label change is display-only). -/
def toggle_shift (st : CalcState α) : CalcState α :=
  { st with shift_mode := !st.shift_mode }

/-- Source lines 199-210: `differentiate_expression`. The fallible
parse/diff/N chain is `outcome` (`some` carries `str(result)`); success
logs `"d/dx(<buffer>) = <result>"` and replaces the buffer, failure
sets the buffer to `"Error"` and logs nothing. -/
def differentiate_expression (st : CalcState α) (outcome : Option String) :
    CalcState α :=
  match outcome with
  | some r =>
    { st with
      history := st.history ++ ["d/dx(" ++ st.expression ++ ") = " ++ r],
      expression := r }
  | none => { st with expression := "Error" }

/-- Source lines 212-223: `integrate_expression`, logging
`"∫(<buffer>) dx = <result>"`. -/
def integrate_expression (st : CalcState α) (outcome : Option String) :
    CalcState α :=
  match outcome with
  | some r =>
    { st with
      history := st.history ++ ["∫(" ++ st.expression ++ ") dx = " ++ r],
      expression := r }
  | none => { st with expression := "Error" }

/-- Source lines 225-240: `solve_equation`. The whole try block
(splitting on `=`, parsing both sides — with the buffer text passed to
the parser verbatim, no caret rewriting — solving, stringifying the
solution list) is the fallible `outcome`; success logs
`"Solve(<buffer>) = <solutions>"` and replaces the buffer, any raise
gives `"Error"` with nothing logged. -/
def solve_equation (st : CalcState α) (outcome : Option String) : CalcState α :=
  match outcome with
  | some r =>
    { st with
      history := st.history ++ ["Solve(" ++ st.expression ++ ") = " ++ r],
      expression := r }
  | none => { st with expression := "Error" }

/-- Source lines 244-274: `solve_ode`. The derivative-notation
normalisation, splitting, parsing and `dsolve` call are the fallible
`outcome`: `ok (sol, rhs)` carries `str(sol)` (logged) and
`str(sol.rhs) if hasattr(sol, "rhs") else str(sol)` (the new buffer);
`error e` carries `str(e)` of the raised exception, and the buffer
becomes `"Error: " ++ e` with nothing logged. -/
def solve_ode (st : CalcState α) (outcome : Except String (String × String)) :
    CalcState α :=
  match outcome with
  | .ok (sol, rhs) =>
    { st with
      history := st.history ++ ["Solve ODE(" ++ st.expression ++ ") = " ++ sol],
      expression := rhs }
  | .error e => { st with expression := "Error: " ++ e }

/-- Source lines 279-290: `fourier_transform`, logging
`"Fourier(<buffer>) = <transform>"`. -/
def fourier_transform (st : CalcState α) (outcome : Option String) :
    CalcState α :=
  match outcome with
  | some r =>
    { st with
      history := st.history ++ ["Fourier(" ++ st.expression ++ ") = " ++ r],
      expression := r }
  | none => { st with expression := "Error" }

/-- Source lines 292-304: `latex_render`. On parse/format failure the
rendered string degrades to `"Error"`; the history entry
`"LaTeX Render: <latex_str>"` is appended either way and the
expression buffer is never touched. -/
def latex_render (st : CalcState α) (outcome : Option String) : CalcState α :=
  let latex_str := outcome.getD "Error"
  { st with history := st.history ++ ["LaTeX Render: " ++ latex_str] }

/-- Source lines 306-316: `matrix_operations`. `outcome` is the
fallible parse plus `det`/`inv` computation, `some (d, i)` carrying
their stringifications (possibly `"N/A"`); success logs
`"Matrix Det: <d>\nMatrix Inv: <i>"` and sets the buffer to
`"Det: <d>"`, a raise gives `"Error"`. -/
def matrix_operations (st : CalcState α) (outcome : Option (String × String)) :
    CalcState α :=
  match outcome with
  | some (d, i) =>
    { st with
      history := st.history ++ ["Matrix Det: " ++ d ++ "\nMatrix Inv: " ++ i],
      expression := "Det: " ++ d }
  | none => { st with expression := "Error" }

/-- Source lines 318-320: `memory_clear`. -/
def memory_clear [Zero α] (st : CalcState α) : CalcState α :=
  { st with memory := 0, history := st.history ++ ["Memory Cleared"] }

/-- Source lines 322-325: `memory_recall` appends the stringified
register onto the buffer and logs it. -/
def memory_recall (fmt : α → String) (st : CalcState α) : CalcState α :=
  { st with
    expression := st.expression ++ fmt st.memory,
    history := st.history ++ ["Memory Recalled: " ++ fmt st.memory] }

/-- Source lines 327-333: `memory_add`. `outcome` is the fallible
`float(eval(buffer.replace('^','**'), ...))`; success adds the value to
the register and logs value and new total, failure logs
`"Memory Add Error"` and changes nothing else. The buffer is never
replaced. -/
def memory_add [Add α] (fmt : α → String) (st : CalcState α)
    (outcome : Option α) : CalcState α :=
  match outcome with
  | some value =>
    let m := st.memory + value
    { st with
      memory := m,
      history := st.history ++ ["Memory Added: " ++ fmt value ++ " -> " ++ fmt m] }
  | none => { st with history := st.history ++ ["Memory Add Error"] }

/-- Source lines 335-341: `memory_subtract`, dually. -/
def memory_subtract [Sub α] (fmt : α → String) (st : CalcState α)
    (outcome : Option α) : CalcState α :=
  match outcome with
  | some value =>
    let m := st.memory - value
    { st with
      memory := m,
      history := st.history ++
        ["Memory Subtracted: " ++ fmt value ++ " -> " ++ fmt m] }
  | none => { st with history := st.history ++ ["Memory Subtract Error"] }

/-- The trigger keys handled by named branches of `click`; every other
key falls through to the literal-append branch. -/
def triggerKeys : List String := ["=", "C", "Del", "toDeg", "toRad", "Graph"]

/-- Folding a token sequence through the `click` dispatcher. -/
def applyTokens [Field β] (eng : Engine β) (st : CalcState α)
    (tokens : List String) : CalcState α :=
  tokens.foldl (click eng) st

/-- In-order concatenation of a list of strings. -/
def joinAll : List String → String
  | [] => ""
  | s :: rest => s ++ joinAll rest

/-- A concrete engine whose external calls all fail, used to instantiate
generic statements at explicit inputs. -/
def engNone : Engine ℚ :=
  { evalExpr := fun _ => none, parseNumber := fun _ => none,
    fmt := fun _ => "", piVal := 0 }

/-- A concrete engine whose number parser accepts exactly the buffer
text `"6"` (as the rational 6) and whose `pi` constant is 3. -/
def engDeg : Engine ℚ :=
  { evalExpr := fun _ => none,
    parseNumber := fun s => if s = "6" then some 6 else none,
    fmt := fun _ => "V",
    piVal := 3 }

/-! Helper lemmas. -/

theorem click_eq_literal [Field β] (eng : Engine β) (st : CalcState α)
    (key : String) (h : key ∉ triggerKeys) :
    click eng st key = clickLiteral st key := by
  simp only [triggerKeys, List.mem_cons, List.not_mem_nil, or_false, not_or] at h
  obtain ⟨h1, h2, h3, h4, h5, h6⟩ := h
  unfold click
  rw [if_neg h1, if_neg h2, if_neg h3, if_neg h4, if_neg h5, if_neg h6]

theorem applyTokens_literal [Field β] (eng : Engine β) :
    ∀ (ts : List String), (∀ t ∈ ts, t ∉ triggerKeys) → ∀ (st : CalcState α),
      applyTokens eng st ts =
        { st with expression :=
            st.expression ++ joinAll (ts.map (mapToken st.shift_mode)) } := by
  intro ts
  induction ts with
  | nil =>
    intro _ st
    cases st with
    | mk a hist sm mem => simp [applyTokens, joinAll, String.append_empty]
  | cons t ts ih =>
    intro h st
    have ht : t ∉ triggerKeys := h t (List.mem_cons_self t ts)
    have hts : ∀ u ∈ ts, u ∉ triggerKeys := fun u hu => h u (List.mem_cons_of_mem t hu)
    have hstep : applyTokens eng st (t :: ts) = applyTokens eng (click eng st t) ts := rfl
    rw [hstep, click_eq_literal eng st t ht, ih hts]
    cases st with
    | mk a hist sm mem =>
      simp [clickLiteral, mapToken, joinAll, String.append_assoc]

theorem length_caretExpand_flatten_ge (l : List Char) :
    l.length ≤ ((l.map caretExpand).flatten).length := by
  induction l with
  | nil => simp
  | cons c cs ih =>
    simp only [List.map_cons, List.flatten_cons, List.length_append, List.length_cons]
    have h1 : 1 ≤ (caretExpand c).length := by
      unfold caretExpand; split <;> simp
    omega

theorem length_caretExpand_flatten_gt (l : List Char) (h : '^' ∈ l) :
    l.length < ((l.map caretExpand).flatten).length := by
  induction l with
  | nil => cases h
  | cons c cs ih =>
    simp only [List.map_cons, List.flatten_cons, List.length_append, List.length_cons]
    rcases List.mem_cons.mp h with rfl | hc
    · have h2 : (caretExpand '^').length = 2 := rfl
      have h3 := length_caretExpand_flatten_ge cs
      omega
    · have h1 : 1 ≤ (caretExpand c).length := by
        unfold caretExpand; split <;> simp
      have h2 := ih hc
      omega

theorem replaceCaret_ne (s : String) (h : '^' ∈ s.data) : replaceCaret s ≠ s := by
  intro he
  have hd : (replaceCaret s).data = s.data := congrArg String.data he
  have hl : ((s.data.map caretExpand).flatten).length = s.data.length :=
    congrArg List.length hd
  have hgt := length_caretExpand_flatten_gt s.data h
  omega

/-! Claim theorems. -/

/-- C1: Every Dispatcher operation (evaluate, differentiate, integrate,
solve-equation, solve-ode, fourier-transform, latex-render, matrix-ops)
terminates with a string in the buffer and never propagates a raised
exception to the caller: whatever the outcome of the external call —
including a raise, modelled as `none`/`error` — the new buffer is the
stringified result or the `"Error"` sentinel (for the ODE path
`"Error: <message>"`; latex-render leaves the buffer alone and logs
`"Error"` as the rendered string). In particular, when the restricted
evaluator rejects the rewritten buffer because it mentions a symbol
outside the fixed vocabulary (the `allowed_names` contract of the
`eval` call), evaluating yields the `"Error"` sentinel. -/
theorem dispatcher_error_sentinel (st : CalcState α)
    (e : String → Option String) (r m : String)
    (h : containsUnknownName (replaceCaret st.expression) = true →
      e (replaceCaret st.expression) = none) :
    ((clickEval st (e (replaceCaret st.expression))).expression
        = (e (replaceCaret st.expression)).getD "Error")
    ∧ (containsUnknownName (replaceCaret st.expression) = true →
        (clickEval st (e (replaceCaret st.expression))).expression = "Error")
    ∧ (clickEval st none).expression = "Error"
    ∧ (clickEval st (some r)).expression = r
    ∧ (differentiate_expression st none).expression = "Error"
    ∧ (differentiate_expression st (some r)).expression = r
    ∧ (integrate_expression st none).expression = "Error"
    ∧ (integrate_expression st (some r)).expression = r
    ∧ (solve_equation st none).expression = "Error"
    ∧ (solve_equation st (some r)).expression = r
    ∧ (solve_ode st (Except.error m)).expression = "Error: " ++ m
    ∧ (fourier_transform st none).expression = "Error"
    ∧ (fourier_transform st (some r)).expression = r
    ∧ (latex_render st none).expression = st.expression
    ∧ (latex_render st none).history = st.history ++ ["LaTeX Render: Error"]
    ∧ (matrix_operations st none).expression = "Error" := by
  refine ⟨?_, ?_, rfl, rfl, rfl, rfl, rfl, rfl, rfl, rfl, rfl, rfl, rfl, rfl,
    rfl, rfl⟩
  · cases he : e (replaceCaret st.expression) <;> simp [clickEval, he]
  · intro hc
    rw [h hc]
    rfl

/-- Witness for C1 at the buffer `"foo(2)"`, whose identifier `foo` is
outside the allowed vocabulary, with an evaluator honouring the
restricted-vocabulary contract. -/
theorem dispatcher_error_sentinel_witness :
    containsUnknownName (replaceCaret "foo(2)") = true
    ∧ (clickEval (CalcState.mk "foo(2)" [] false (0 : Int)) none).expression
        = "Error" := by
  refine ⟨by decide, ?_⟩
  exact (dispatcher_error_sentinel (CalcState.mk "foo(2)" [] false (0 : Int))
    (fun _ => none) "" "" (fun _ => rfl)).2.1 (by decide)

/-- C2 counterexample: the claim says a failed evaluation also appends
one HistoryEntry, but on the empty buffer (whose parse raises, so the
external outcome is `none`) the evaluate trigger sets the `"Error"`
sentinel and appends nothing. -/
theorem failed_evaluate_logs_nothing :
    (clickEval (CalcState.mk "" [] false (0 : Int)) none).expression = "Error"
    ∧ (clickEval (CalcState.mk "" [] false (0 : Int)) none).history.length = 0
    ∧ ¬ ((clickEval (CalcState.mk "" [] false (0 : Int)) none).history.length
          = (CalcState.mk "" [] false (0 : Int)).history.length + 1) := by
  decide

/-- C2 (amended): every evaluation that reaches the Dispatcher
(evaluate, differentiate, integrate, solve-equation, solve-ode,
fourier-transform, matrix-ops) appends exactly one HistoryEntry when
the external call succeeds and none when it fails; trivial edits
(delete-last, clear, mode toggle) append none. -/
theorem history_entry_success_only [Field β] (eng : Engine β)
    (st : CalcState α) (r sol rhs m d i : String) :
    (clickEval st (some r)).history.length = st.history.length + 1
    ∧ (clickEval st none).history = st.history
    ∧ (differentiate_expression st (some r)).history.length = st.history.length + 1
    ∧ (differentiate_expression st none).history = st.history
    ∧ (integrate_expression st (some r)).history.length = st.history.length + 1
    ∧ (integrate_expression st none).history = st.history
    ∧ (solve_equation st (some r)).history.length = st.history.length + 1
    ∧ (solve_equation st none).history = st.history
    ∧ (solve_ode st (Except.ok (sol, rhs))).history.length = st.history.length + 1
    ∧ (solve_ode st (Except.error m)).history = st.history
    ∧ (fourier_transform st (some r)).history.length = st.history.length + 1
    ∧ (fourier_transform st none).history = st.history
    ∧ (matrix_operations st (some (d, i))).history.length = st.history.length + 1
    ∧ (matrix_operations st none).history = st.history
    ∧ (click eng st "Del").history = st.history
    ∧ (click eng st "C").history = st.history
    ∧ (toggle_shift st).history = st.history := by
  refine ⟨?_, rfl, ?_, rfl, ?_, rfl, ?_, rfl, ?_, rfl, ?_, rfl, ?_, rfl,
    rfl, rfl, rfl⟩ <;>
  simp [clickEval, differentiate_expression, integrate_expression,
    solve_equation, solve_ode, fourier_transform, matrix_operations]

/-- C3: folding a sequence of literal/function tokens (no trigger keys)
through `click`, starting from the empty buffer, yields the in-order
concatenation of the tokens, each digit token remapped through the
fixed shift table exactly when shift mode is active at the time it is
applied; shift mode, history and memory are untouched, non-digit
tokens and unshifted digits are appended verbatim, and the table is
7 to x, 8 to y, 9 to z, 4 to a, 5 to b, 6 to c, 1 to d, 2 to e,
3 to f, 0 to g. -/
theorem literal_tokens_concat [Field β] (eng : Engine β) (st : CalcState α)
    (ts : List String) (h : ∀ t ∈ ts, t ∉ triggerKeys)
    (h0 : st.expression = "") :
    (applyTokens eng st ts).expression = joinAll (ts.map (mapToken st.shift_mode))
    ∧ (applyTokens eng st ts).shift_mode = st.shift_mode
    ∧ (applyTokens eng st ts).history = st.history
    ∧ (applyTokens eng st ts).memory = st.memory
    ∧ (∀ k, pyIsDigit k = true → ∀ b, mapToken b k = if b then lookupShift k else k)
    ∧ (∀ k, pyIsDigit k = false → ∀ b, mapToken b k = k)
    ∧ lookupShift "7" = "x" ∧ lookupShift "8" = "y" ∧ lookupShift "9" = "z"
    ∧ lookupShift "4" = "a" ∧ lookupShift "5" = "b" ∧ lookupShift "6" = "c"
    ∧ lookupShift "1" = "d" ∧ lookupShift "2" = "e" ∧ lookupShift "3" = "f"
    ∧ lookupShift "0" = "g" := by
  have happ := applyTokens_literal eng ts h st
  refine ⟨?_, ?_, ?_, ?_, ?_, ?_, by decide, by decide, by decide, by decide,
    by decide, by decide, by decide, by decide, by decide, by decide⟩
  · rw [happ]
    show st.expression ++ _ = _
    rw [h0]
    rfl
  · rw [happ]
  · rw [happ]
  · rw [happ]
  · intro k hk b
    unfold mapToken
    rw [hk]
    cases b <;> simp
  · intro k hk b
    unfold mapToken
    rw [hk]
    simp

/-- Witness for C3: with shift mode on, the tokens 7, +, 3 produce the
buffer `"x+f"`. -/
theorem literal_tokens_concat_witness :
    (applyTokens engNone (CalcState.mk "" [] true (0 : Int))
      ["7", "+", "3"]).expression = "x+f" := by
  have h := (literal_tokens_concat engNone (CalcState.mk "" [] true (0 : Int))
    ["7", "+", "3"] (by decide) rfl).1
  rw [h]
  decide

/-- C4: the to-degrees trigger parses the whole buffer as one number
and on success replaces the buffer with the stringified value times
180 over pi and appends one HistoryEntry naming the conversion and the
pre-conversion buffer; to-radians multiplies by pi over 180; on parse
failure the buffer becomes the `"Error"` sentinel and no HistoryEntry
is appended. -/
theorem unit_conversion_contract [Field β] (eng : Engine β) (st : CalcState α) :
    ((click eng st "toDeg").expression
        = match eng.parseNumber st.expression with
          | some v => eng.fmt (v * 180 / eng.piVal)
          | none => "Error")
    ∧ ((click eng st "toDeg").history
        = match eng.parseNumber st.expression with
          | some v => st.history ++
              ["toDeg(" ++ st.expression ++ ") = " ++ eng.fmt (v * 180 / eng.piVal)]
          | none => st.history)
    ∧ ((click eng st "toRad").expression
        = match eng.parseNumber st.expression with
          | some v => eng.fmt (v * eng.piVal / 180)
          | none => "Error")
    ∧ ((click eng st "toRad").history
        = match eng.parseNumber st.expression with
          | some v => st.history ++
              ["toRad(" ++ st.expression ++ ") = " ++ eng.fmt (v * eng.piVal / 180)]
          | none => st.history) := by
  have hdeg : click eng st "toDeg" = clickToDeg eng st := rfl
  have hrad : click eng st "toRad" = clickToRad eng st := rfl
  rw [hdeg, hrad]
  unfold clickToDeg clickToRad
  cases eng.parseNumber st.expression <;> simp

/-- Witness for C4: with a parser accepting the buffer `"6"` (as the
rational 6), to-degrees replaces the buffer with the formatted
converted value and appends the matching HistoryEntry. -/
theorem unit_conversion_contract_witness :
    (click engDeg (CalcState.mk "6" [] false (0 : ℚ)) "toDeg").expression = "V"
    ∧ (click engDeg (CalcState.mk "6" [] false (0 : ℚ)) "toDeg").history
        = ["toDeg(6) = V"] := by
  have h := unit_conversion_contract engDeg (CalcState.mk "6" [] false (0 : ℚ))
  refine ⟨?_, ?_⟩
  · rw [h.1]
    decide
  · rw [h.2.1]
    decide

/-- C5: memory add and subtract evaluate the buffer without replacing
it; on success the register becomes old plus (resp. minus) the value
with the value and new total logged, on failure an error message is
logged and the register is unchanged; the buffer is unchanged in every
case. -/
theorem memory_add_subtract_contract [Add α] [Sub α] (fmt : α → String)
    (st : CalcState α) (v : α) :
    (memory_add fmt st (some v)).memory = st.memory + v
    ∧ (memory_add fmt st (some v)).history = st.history ++
        ["Memory Added: " ++ fmt v ++ " -> " ++ fmt (st.memory + v)]
    ∧ (memory_add fmt st (some v)).expression = st.expression
    ∧ (memory_add fmt st none).memory = st.memory
    ∧ (memory_add fmt st none).history = st.history ++ ["Memory Add Error"]
    ∧ (memory_add fmt st none).expression = st.expression
    ∧ (memory_subtract fmt st (some v)).memory = st.memory - v
    ∧ (memory_subtract fmt st (some v)).history = st.history ++
        ["Memory Subtracted: " ++ fmt v ++ " -> " ++ fmt (st.memory - v)]
    ∧ (memory_subtract fmt st (some v)).expression = st.expression
    ∧ (memory_subtract fmt st none).memory = st.memory
    ∧ (memory_subtract fmt st none).history = st.history ++ ["Memory Subtract Error"]
    ∧ (memory_subtract fmt st none).expression = st.expression :=
  ⟨rfl, rfl, rfl, rfl, rfl, rfl, rfl, rfl, rfl, rfl, rfl, rfl⟩

/-- C6: delete-last removes exactly the last character of the buffer
(the length drops by exactly one and the result concatenated with the
removed last character restores the buffer) and is a no-op on the
empty buffer, since dropping the last element of the empty character
list is the empty list. -/
theorem delete_last_contract [Field β] (eng : Engine β) (st : CalcState α) :
    (click eng st "Del").expression.data = st.expression.data.dropLast
    ∧ (click eng st "Del").expression.length = st.expression.length - 1
    ∧ ∀ h : st.expression.data ≠ [],
        (click eng st "Del").expression.length + 1 = st.expression.length
        ∧ (click eng st "Del").expression.data ++ [st.expression.data.getLast h]
            = st.expression.data := by
  have hdel : click eng st "Del" = { st with expression := pySliceDropLast st.expression } := rfl
  refine ⟨by rw [hdel]; rfl, ?_, ?_⟩
  · rw [hdel]
    show st.expression.data.dropLast.length = _
    rw [List.length_dropLast]
    rfl
  · intro h
    have hpos : 0 < st.expression.data.length := List.length_pos.mpr h
    constructor
    · rw [hdel]
      show st.expression.data.dropLast.length + 1 = st.expression.data.length
      rw [List.length_dropLast]
      omega
    · rw [hdel]
      exact List.dropLast_append_getLast h

/-- Witness for C6 at the nonempty buffer `"ab"`. -/
theorem delete_last_contract_witness :
    (click engNone (CalcState.mk "ab" [] false (0 : ℚ)) "Del").expression.length + 1
        = ("ab" : String).length
    ∧ (click engNone (CalcState.mk "ab" [] false (0 : ℚ)) "Del").expression.data
        ++ ["ab".data.getLast (by decide)] = "ab".data :=
  (delete_last_contract engNone (CalcState.mk "ab" [] false (0 : ℚ))).2.2 (by decide)

/-- C7: the clear token empties the buffer and leaves the memory
register, shift mode and history untouched. -/
theorem clear_frame_contract [Field β] (eng : Engine β) (st : CalcState α) :
    (click eng st "C").expression = ""
    ∧ (click eng st "C").memory = st.memory
    ∧ (click eng st "C").shift_mode = st.shift_mode
    ∧ (click eng st "C").history = st.history :=
  ⟨rfl, rfl, rfl, rfl⟩

/-- C8: at the failing input `"x^2-4=0"` the solve-equation path splits
the buffer into the sides `"x^2-4"` and `"0"` and hands them to the
symbolic parser with the caret intact (no rewriting to `**` happens on
this path, unlike the evaluate path), and when the parse/solve call
raises the buffer becomes the `"Error"` sentinel, not a solution
list. -/
theorem solve_equation_caret_failing_input :
    ('=' ∈ "x^2-4=0".data
      ∧ splitTwo "x^2-4=0" = some ("x^2-4", "0")
      ∧ '^' ∈ "x^2-4".data)
    ∧ (solve_equation (CalcState.mk "x^2-4=0" [] false (0 : Int)) none).expression
        = "Error"
    ∧ (solve_equation (CalcState.mk "x^2-4=0" [] false (0 : Int)) none).history
        = [] := by
  decide

/-- C9: when the buffer is empty, the evaluate trigger — whose parse of
the empty string raises, so the external evaluator yields `none` on
the empty input — sets the buffer to the `"Error"` sentinel and
appends no HistoryEntry. -/
theorem evaluate_empty_buffer_error [Field β] (eng : Engine β)
    (st : CalcState α) (he : eng.evalExpr "" = none)
    (hb : st.expression = "") :
    (click eng st "=").expression = "Error"
    ∧ (click eng st "=").history = st.history := by
  have heq : click eng st "=" = clickEval st (eng.evalExpr (replaceCaret st.expression)) := rfl
  rw [heq, hb]
  have hrc : replaceCaret "" = "" := rfl
  rw [hrc, he]
  exact ⟨rfl, rfl⟩

/-- Witness for C9 at a state with the empty buffer and an engine
failing on the empty string. -/
theorem evaluate_empty_buffer_error_witness :
    (click engNone (CalcState.mk "" ["old"] false (0 : ℚ)) "=").expression = "Error"
    ∧ (click engNone (CalcState.mk "" ["old"] false (0 : ℚ)) "=").history = ["old"] :=
  evaluate_empty_buffer_error engNone (CalcState.mk "" ["old"] false (0 : ℚ)) rfl rfl

/-- C10: a successful evaluate logs a HistoryEntry whose expression
part is the buffer with every caret rewritten to `**`, and when the
buffer contains a caret this rewritten form differs from the original
buffer text. -/
theorem evaluate_history_uses_rewritten_expression (st : CalcState α)
    (r : String) (hc : '^' ∈ st.expression.data) :
    (clickEval st (some r)).history
        = st.history ++ [replaceCaret st.expression ++ " = " ++ r]
    ∧ replaceCaret st.expression ≠ st.expression :=
  ⟨rfl, replaceCaret_ne st.expression hc⟩

/-- Witness for C10 at the buffer `"2^3"` with result `"8"`. -/
theorem evaluate_history_uses_rewritten_expression_witness :
    (clickEval (CalcState.mk "2^3" [] false (0 : Int)) (some "8")).history
        = ["2**3 = 8"]
    ∧ replaceCaret "2^3" ≠ "2^3" := by
  have h := evaluate_history_uses_rewritten_expression
    (CalcState.mk "2^3" [] false (0 : Int)) "8" (by decide)
  exact ⟨by rw [h.1]; decide, h.2⟩

end SciCalc
